import Mathlib

/-!
Verification of the image-shortcuts tool (`src/main.py`).

The development shallowly embeds the pure logic of the program:

* path helpers `remove_extension` (Python `os.path.splitext`-based),
  `basename`, and the `split('.')[-1].upper()` extension computation;
* the candidate-index loop of `ImageTransfer.convert_image_shortcuts`
  (lines 185-194), including the unconditional dictionary subscript
  `processed_scanned_folder[base_name]` that precedes the membership
  test, modelled as a `KeyError`-raising step;
* the synchronizer loop (lines 195-216): reserved-name skipping, index
  lookup, the replacement set (`matching_files`), the deletion of files
  sharing the base name, and shortcut creation with the macOS
  `try/except` that swallows a failed `osascript` call;
* `create_shortcut` (lines 87-102) with its existence check and platform
  dispatch.

Filesystem reads (directory walks, `os.path.exists`, `os.listdir`) are
parameters; filesystem writes are recorded as an `Event` trace.
Python exceptions are values of `PyError`.
-/

/-- Python-level exceptions that the modelled code can raise. -/
inductive PyError where
  | keyError (key : String)
  | fileNotFound (path : String)
  | osUnsupported (system : String)
deriving DecidableEq

/-- Filesystem effects and console output performed by the synchronizer. -/
inductive Event where
  /-- line 210: `print(f"Matching files found for {file}: {matching_files}")` -/
  | matchPrint (file : String) (matching : List String)
  /-- `os.remove` inside `delete_files_with_same_basename` (line 129). -/
  | deleted (name : String)
  /-- a successful `osascript` run in `create_alias_macos` (line 66). -/
  | createdAlias (src : String) (dst : String)
  /-- the `except subprocess.CalledProcessError` branch of
  `create_alias_macos` (lines 67-69): prints the error and the attempted
  AppleScript, and returns normally. -/
  | aliasErr (src : String) (dst : String)
  /-- `create_shortcut_windows` saving a `.lnk` file (line 85). -/
  | createdLnk (src : String) (dst : String)
deriving DecidableEq

/-- Characters of the path after the last `'/'` (Python `os.path.basename`). -/
def basenameList (l : List Char) : List Char :=
  (l.reverse.takeWhile (fun c => c ≠ '/')).reverse

/-- Python `os.path.basename` (posix flavour). -/
def basename (p : String) : String :=
  ⟨basenameList p.toList⟩

/-- Characters strictly before the last `'.'`, when the list contains a
`'.'`; the whole list otherwise.  Helper for `os.path.splitext`. -/
def stripLastExt (rest : List Char) : List Char :=
  if rest.contains '.' then ((rest.reverse.dropWhile (fun c => c ≠ '.')).drop 1).reverse
  else rest

/-- Python `remove_extension` (line 46), i.e. `os.path.splitext(p)[0]`:
the directory part is kept, leading dots of the base name never start an
extension, and the extension starts at the last remaining `'.'`. -/
def remove_extension (p : String) : String :=
  let l := p.toList
  let dir := (l.reverse.dropWhile (fun c => c ≠ '/')).reverse
  let base := (l.reverse.takeWhile (fun c => c ≠ '/')).reverse
  let lead := base.takeWhile (fun c => c = '.')
  let rest := base.dropWhile (fun c => c = '.')
  ⟨dir ++ lead ++ stripLastExt rest⟩

/-- Characters after the last `'.'` of the whole path — Python
`p.split('.')[-1]` (the whole path when it holds no dot). -/
def lastAfterDot (l : List Char) : List Char :=
  (l.reverse.takeWhile (fun c => c ≠ '.')).reverse

/-- Python `p.split('.')[-1]`, as a `String`. -/
def lastDotPart (p : String) : String :=
  ⟨lastAfterDot p.toList⟩

/-- Python `p.endswith(suffix)` (line 196 of `src/main.py`). -/
def endswith (p suffix : String) : Bool :=
  suffix.toList.isSuffixOf p.toList

/-- Python `p.split('.')[-1].upper()` — the extension computation used at
lines 188, 192, 203 of `src/main.py`. -/
def extUpper (p : String) : String :=
  ⟨(lastAfterDot p.toList).map Char.toUpper⟩

/-- Lookup `priority_map[e]` where
`priority_map = {ext: idx for idx, ext in enumerate(type_priority)}`
(line 185).  A duplicated extension keeps its **last** index, as a Python
dict comprehension does; `none` models the key being absent. -/
def priorityRankAux (e : String) : List String → Nat → Option Nat → Option Nat
  | [], _, acc => acc
  | x :: xs, i, acc => priorityRankAux e xs (i + 1) (if x = e then some i else acc)

/-- Rank of extension `e` in `type_priority`, `none` when absent. -/
def priorityRank (tp : List String) (e : String) : Option Nat :=
  priorityRankAux e tp 0 none

/-- Python dict lookup on the candidate index (`processed_scanned_folder`). -/
def dlookup : List (String × String) → String → Option String
  | [], _ => none
  | (k, v) :: rest, key => if k = key then some v else dlookup rest key

/-- Python dict assignment `d[key] = v`: replace in place, or append. -/
def dinsert : List (String × String) → String → String → List (String × String)
  | [], key, v => [(key, v)]
  | (k, w) :: rest, key, v =>
    if k = key then (key, v) :: rest else (k, w) :: dinsert rest key v

/-- One iteration of the candidate-index loop, lines 187-194 of
`src/main.py`.  Faithful to the source: when the extension is in the
priority map, the code subscripts `processed_scanned_folder[base_name]`
(line 191) **before** testing membership, so an unseen base name raises
`KeyError`; the stored file's extension is also subscripted into the
priority map (line 192) before the guard of line 193 is evaluated. -/
def buildIndexStep (tp : List String) (m : List (String × String)) (file : String) :
    Except PyError (List (String × String)) :=
  let ext := extUpper file
  match priorityRank tp ext with
  | none => Except.ok m
  | some rank =>
    let base_name := remove_extension (basename file)
    match dlookup m base_name with
    | none => Except.error (PyError.keyError base_name)
    | some stored =>
      match priorityRank tp (extUpper stored) with
      | none => Except.error (PyError.keyError (extUpper stored))
      | some processed_order =>
        if rank < processed_order then Except.ok (dinsert m base_name file)
        else Except.ok m

/-- The candidate-index loop run from an intermediate dictionary. -/
def buildIndexFrom (tp : List String) (m : List (String × String)) :
    List String → Except PyError (List (String × String))
  | [] => Except.ok m
  | f :: fs =>
    match buildIndexStep tp m f with
    | Except.error e => Except.error e
    | Except.ok m' => buildIndexFrom tp m' fs

/-- The candidate index built from the reference-tree walk
(`scanned_folder`, line 184) — lines 185-194 of `src/main.py`. -/
def buildIndex (tp : List String) (files : List String) :
    Except PyError (List (String × String)) :=
  buildIndexFrom tp [] files

/-- Default `type_priority` (line 175 of `src/main.py`). -/
def default_type_priority : List String := ["NEF", "TIF", "TIFF", "JPG", "JPEG"]

/-- `create_alias_macos` (lines 48-69 of `src/main.py`).  `aliasOk src dst`
tells whether the `osascript` subprocess exits with status 0 for this
source/alias pair.  On failure the Python code **catches**
`subprocess.CalledProcessError`, prints the error together with the
attempted AppleScript (the `aliasErr` event), and returns normally:
nothing is raised past this function. -/
def create_alias_macos (aliasOk : String → String → Bool) (src dst : String) :
    List Event :=
  if aliasOk src dst then [Event.createdAlias src dst]
  else [Event.aliasErr src dst]

/-- `create_shortcut` (lines 87-102 of `src/main.py`): raises
`FileNotFoundError` when the source does not exist, then dispatches on
`platform.system()`: macOS alias, Windows `.lnk`, otherwise `OSError`. -/
def create_shortcut (exists_fn : String → Bool) (aliasOk : String → String → Bool)
    (system : String) (source_file alias_location : String) :
    Except PyError (List Event) :=
  if exists_fn source_file = false then
    Except.error (PyError.fileNotFound source_file)
  else if system = "Darwin" then
    Except.ok (create_alias_macos aliasOk source_file alias_location)
  else if system = "Windows" then
    Except.ok [Event.createdLnk source_file (alias_location ++ ".lnk")]
  else
    Except.error (PyError.osUnsupported system)

/-- The replacement set of lines 204-209 of `src/main.py`: the selected
reference file, plus its `.xmp` sidecar when the selected extension is
`NEF` and the sidecar exists on disk. -/
def matching_files (exists_fn : String → Bool) (matching_file : String) :
    List String :=
  let ext := extUpper matching_file
  if ext = "NEF" then
    let xmp_file := remove_extension matching_file ++ ".xmp"
    if exists_fn xmp_file then [matching_file, xmp_file] else [matching_file]
  else [matching_file]

/-- Inputs of the synchronizer loop that the filesystem provides:
the target folder path, the candidate index, `os.path.exists`, and the
success predicate of the `osascript` call. -/
structure SyncEnv where
  folder : String
  index : List (String × String)
  refExists : String → Bool
  aliasOk : String → String → Bool

/-- Name of the filesystem entry a successful shortcut creation leaves in
the target folder: on macOS the alias is renamed to the requested name,
on Windows `.lnk` is appended. -/
def eventNewNames : Event → List String
  | Event.createdAlias _ dst => [basename dst]
  | Event.createdLnk _ dst => [basename dst]
  | _ => []

/-- The `for shortcut_source in matching_files` loop of lines 214-216:
each iteration builds `new_file_name` from the base name and the source's
own (non-uppercased) last dot-component, and calls `create_shortcut`.
A raised `PyError` stops the whole loop (and, upstream, the whole run);
names of files created so far and events already emitted are kept —
nothing is rolled back. -/
def createShortcutsLoop (env : SyncEnv) (system : String) (processed_file : String)
    (names : List String) : List String → List String × List Event × Option PyError
  | [] => (names, [], none)
  | src :: rest =>
    let new_file_name := processed_file ++ "." ++ lastDotPart src
    match create_shortcut env.refExists env.aliasOk system src
        (env.folder ++ "/" ++ new_file_name) with
    | Except.error e => (names, [], some e)
    | Except.ok evs =>
      let out := createShortcutsLoop env system processed_file
        (names ++ evs.flatMap eventNewNames) rest
      (out.1, evs ++ out.2.1, out.2.2)

/-- One iteration of the synchronizer loop (lines 196-216 of
`src/main.py`) on target file `file`, with `names` the current top-level
listing of the target folder (`os.listdir`): skip names ending in
`DS_Store`; look the base name up in the index; on a hit, print the
match, delete every listed file sharing the base name
(`delete_files_with_same_basename`, lines 120-129), then create the
shortcuts. -/
def syncFile (env : SyncEnv) (system : String) (names : List String)
    (file : String) : List String × List Event × Option PyError :=
  if endswith file "DS_Store" then (names, [], none)
  else
    let processed_file := remove_extension (basename file)
    match dlookup env.index processed_file with
    | none => (names, [], none)
    | some matching_file =>
      let mfiles := matching_files env.refExists matching_file
      let delNames := names.filter (fun n => remove_extension n = processed_file)
      let names1 := names.filter (fun n => ¬ remove_extension n = processed_file)
      let out := createShortcutsLoop env system processed_file names1 mfiles
      (out.1, Event.matchPrint file mfiles :: (delNames.map Event.deleted ++ out.2.1),
        out.2.2)

/-- The synchronizer loop over the (pre-computed) recursive walk of the
target folder (line 195).  A raised `PyError` halts the run; events of
completed iterations are kept. -/
def syncRun (env : SyncEnv) (system : String) (names : List String) :
    List String → List String × List Event × Option PyError
  | [] => (names, [], none)
  | f :: fs =>
    let out := syncFile env system names f
    match out.2.2 with
    | some e => (out.1, out.2.1, some e)
    | none =>
      let out2 := syncRun env system out.1 fs
      (out2.1, out.2.1 ++ out2.2.1, out2.2.2)

/-- `ImageTransfer.convert_image_shortcuts` (lines 160-216).  The
constructor stores `self.folder = os.path.abspath(folder) if folder else
None`, so a falsy target folder is `none` here.  `refFiles` is the
recursive walk of `img_dir`, `targetWalk` the recursive walk of the
target folder, `targetNames` its top-level listing.  The result carries
the Python return value (`some false` from line 179; `none` for the
implicit `None` at the end), the final folder listing, the event trace,
and the uncaught exception when one is raised. -/
def convert_image_shortcuts (folder : Option String)
    (type_priority : Option (List String)) (refFiles : List String)
    (refExists : String → Bool) (aliasOk : String → String → Bool)
    (system : String) (targetWalk : List String) (targetNames : List String) :
    Option Bool × List String × List Event × Option PyError :=
  let tp := type_priority.getD default_type_priority
  match folder with
  | none => (some false, targetNames, [], none)
  | some fld =>
    match buildIndex tp refFiles with
    | Except.error e => (none, targetNames, [], some e)
    | Except.ok idx =>
      let out := syncRun ⟨fld, idx, refExists, aliasOk⟩ system targetNames targetWalk
      (none, out.1, out.2.1, out.2.2)


/-- Invariant of the candidate index: every stored file's
`split('.')[-1].upper()` extension is in the priority list. -/
def goodMap (tp : List String) (m : List (String × String)) : Prop :=
  ∀ b v, dlookup m b = some v → extUpper v ∈ tp

/-- The concrete instance used against C6: the target folder holds
`xDS_Store` and `xDS_Store.JPG`, and the index maps their shared base
name `xDS_Store` to an existing reference file. -/
def envC6 : SyncEnv :=
  ⟨"/t", [("xDS_Store", "/r/xDS_Store.JPG")],
    fun s => s == "/r/xDS_Store.JPG", fun _ _ => true⟩

/-- The concrete instance used against C9: both target files match, both
reference sources exist, and the `osascript` call fails (non-zero) for
the first source only. -/
def envC9 : SyncEnv :=
  ⟨"/t", [("a", "/r/a.JPG"), ("b", "/r/b.JPG")],
    fun s => s == "/r/a.JPG" || s == "/r/b.JPG",
    fun src _ => !(src == "/r/a.JPG")⟩

lemma priorityRankAux_eq_none (e : String) (l : List String) :
    ∀ (i : Nat) (acc : Option Nat),
      priorityRankAux e l i acc = none ↔ acc = none ∧ e ∉ l := by
  induction l with
  | nil => intro i acc; simp [priorityRankAux]
  | cons x xs ih =>
    intro i acc
    rw [priorityRankAux, ih]
    by_cases hx : x = e
    · subst hx
      simp
    · rw [if_neg hx]
      simp only [List.mem_cons, not_or]
      constructor
      · rintro ⟨ha, hne⟩
        exact ⟨ha, fun h => hx h.symm, hne⟩
      · rintro ⟨ha, _, hne⟩
        exact ⟨ha, hne⟩

/-- `ext in priority_map` is exactly membership in `type_priority`. -/
lemma priorityRank_eq_none_iff (tp : List String) (e : String) :
    priorityRank tp e = none ↔ e ∉ tp := by
  rw [priorityRank, priorityRankAux_eq_none]
  simp

lemma priorityRank_mem {tp : List String} {e : String} {r : Nat}
    (h : priorityRank tp e = some r) : e ∈ tp := by
  by_contra hmem
  rw [← priorityRank_eq_none_iff] at hmem
  rw [h] at hmem
  exact Option.noConfusion hmem

lemma dlookup_dinsert_some {m : List (String × String)} {k v key w : String}
    (h : dlookup (dinsert m k v) key = some w) :
    w = v ∨ dlookup m key = some w := by
  induction m with
  | nil =>
    rw [dinsert, dlookup] at h
    by_cases hk : k = key
    · rw [if_pos hk] at h
      exact Or.inl (Option.some.inj h).symm
    · rw [if_neg hk] at h
      exact Option.noConfusion h
  | cons p rest ih =>
    obtain ⟨k', u⟩ := p
    rw [dinsert] at h
    by_cases hk : k' = k
    · rw [if_pos hk] at h
      rw [dlookup] at h
      by_cases hkey : k = key
      · rw [if_pos hkey] at h
        exact Or.inl (Option.some.inj h).symm
      · rw [if_neg hkey] at h
        right
        rw [dlookup, hk]
        rw [if_neg hkey]
        exact h
    · rw [if_neg hk] at h
      rw [dlookup] at h
      by_cases hkey : k' = key
      · rw [if_pos hkey] at h
        right
        rw [dlookup, if_pos hkey]
        exact h
      · rw [if_neg hkey] at h
        rcases ih h with hv | hm
        · exact Or.inl hv
        · right
          rw [dlookup, if_neg hkey]
          exact hm

lemma buildIndexStep_good {tp : List String} {m m' : List (String × String)}
    {f : String} (hg : goodMap tp m)
    (h : buildIndexStep tp m f = Except.ok m') : goodMap tp m' := by
  rw [buildIndexStep] at h
  cases hr : priorityRank tp (extUpper f) with
  | none =>
    rw [hr] at h
    exact (Except.ok.inj h) ▸ hg
  | some rank =>
    rw [hr] at h
    dsimp only [] at h
    cases hl : dlookup m (remove_extension (basename f)) with
    | none =>
      rw [hl] at h
      exact Except.noConfusion h
    | some stored =>
      rw [hl] at h
      dsimp only [] at h
      cases hr2 : priorityRank tp (extUpper stored) with
      | none =>
        rw [hr2] at h
        exact Except.noConfusion h
      | some processed_order =>
        rw [hr2] at h
        dsimp only [] at h
        by_cases hlt : rank < processed_order
        · rw [if_pos hlt] at h
          have hm' := (Except.ok.inj h).symm
          subst hm'
          intro b v hbv
          rcases dlookup_dinsert_some hbv with hv | hold
          · subst hv
            exact priorityRank_mem hr
          · exact hg b v hold
        · rw [if_neg hlt] at h
          exact (Except.ok.inj h) ▸ hg

lemma buildIndexFrom_good {tp : List String} (fs : List String) :
    ∀ {m m' : List (String × String)}, goodMap tp m →
      buildIndexFrom tp m fs = Except.ok m' → goodMap tp m' := by
  induction fs with
  | nil =>
    intro m m' hg h
    rw [buildIndexFrom] at h
    exact (Except.ok.inj h) ▸ hg
  | cons f fs ih =>
    intro m m' hg h
    rw [buildIndexFrom] at h
    cases hs : buildIndexStep tp m f with
    | error e =>
      rw [hs] at h
      exact Except.noConfusion h
    | ok m1 =>
      rw [hs] at h
      exact ih (buildIndexStep_good hg hs) h

lemma buildIndexStep_skip {tp : List String} {m : List (String × String)}
    {f : String} (h : priorityRank tp (extUpper f) = none) :
    buildIndexStep tp m f = Except.ok m := by
  rw [buildIndexStep, h]

lemma buildIndexFrom_all_skip {tp : List String} (fs : List String)
    (m : List (String × String))
    (h : ∀ f ∈ fs, priorityRank tp (extUpper f) = none) :
    buildIndexFrom tp m fs = Except.ok m := by
  induction fs with
  | nil => rw [buildIndexFrom]
  | cons f fs ih =>
    rw [buildIndexFrom, buildIndexStep_skip (h f (List.mem_cons_self f fs))]
    exact ih fun g hg => h g (List.mem_cons_of_mem f hg)

/-- C1: the claim says that for two reference files sharing a base name
with both extensions in the priority list, the indexer maps the base
name to the earlier-ranked file.  The code contradicts this: line 191
subscripts `processed_scanned_folder[base_name]` before the membership
test of line 193, so the very first such file raises `KeyError` and no
mapping is ever produced.  Here: priority list `["NEF", "JPG"]`,
reference walk `["r/a.NEF", "r/a.JPG"]` — the loop raises
`KeyError('a')` at `r/a.NEF` instead of mapping `"a" ↦ "r/a.NEF"`. -/
theorem C1_indexer_keyerror_on_shared_basename :
    buildIndex ["NEF", "JPG"] ["r/a.NEF", "r/a.JPG"] =
      Except.error (PyError.keyError "a") := by rfl

/-- C2: the claim says a reference file with a priority extension and an
unseen base name is inserted into the index without any error.  The code
contradicts this: with the default priority list and the single
reference file `a.NEF`, line 191 raises `KeyError('a')` instead of
inserting `"a" ↦ "a.NEF"`. -/
theorem C2_indexer_keyerror_on_unseen_basename :
    buildIndex default_type_priority ["a.NEF"] =
      Except.error (PyError.keyError "a") := by rfl

/-- C4: the claim says that of two reference files sharing a base name
with equal priority rank, the first-seen one is kept.  The code
contradicts this: with priority list `["JPG"]` and the equal-rank files
`x/a.JPG` and `y/a.JPG`, line 191 raises `KeyError('a')` at the first
file, so nothing is stored, let alone kept. -/
theorem C4_indexer_keyerror_on_equal_rank :
    buildIndex ["JPG"] ["x/a.JPG", "y/a.JPG"] =
      Except.error (PyError.keyError "a") := by rfl

/-- C3: a reference file whose `split('.')[-1].upper()` extension is not
in the priority list never appears as a value of the candidate index
(first conjunct: any index the loop returns maps only to files with
priority extensions), and when every file of the walk has a non-priority
extension the loop returns the empty index with no error (second
conjunct), however many such files share a base name. -/
theorem C3_outside_priority_never_indexed (tp : List String)
    (files : List String) :
    (∀ m, buildIndex tp files = Except.ok m →
      ∀ f, extUpper f ∉ tp → ∀ b, dlookup m b ≠ some f) ∧
    ((∀ f ∈ files, extUpper f ∉ tp) → buildIndex tp files = Except.ok []) := by
  constructor
  · intro m hok f hf b hlookup
    have hg : goodMap tp m :=
      buildIndexFrom_good files (fun b v h => Option.noConfusion h) hok
    exact hf (hg b f hlookup)
  · intro h
    exact buildIndexFrom_all_skip files []
      (fun f hf => (priorityRank_eq_none_iff tp (extUpper f)).mpr (h f hf))

/-- Witness for C3: priority list `["NEF"]`, reference walk `["b.PNG"]` —
the walk's only file has extension `PNG ∉ ["NEF"]`, the loop returns the
empty index without error, and `b.PNG` is not the value of entry `b`. -/
theorem C3_outside_priority_never_indexed_witness :
    buildIndex ["NEF"] ["b.PNG"] = Except.ok [] ∧
    dlookup [] "b" ≠ some "b.PNG" := by
  have h := C3_outside_priority_never_indexed ["NEF"] ["b.PNG"]
  refine ⟨h.2 (by decide), ?_⟩
  exact h.1 [] (h.2 (by decide)) "b.PNG" (by decide) "b"

/-- C5: the replacement set built at lines 204-209 for a matched target
file is `[m, sidecar]` (size 2) exactly when the selected file's
uppercased extension is `NEF` and the `.xmp` sidecar exists on disk; in
every other case it is `[m]` (size 1). -/
theorem C5_replacement_set_size (exists_fn : String → Bool) (m : String) :
    (extUpper m = "NEF" ∧ exists_fn (remove_extension m ++ ".xmp") = true →
      matching_files exists_fn m = [m, remove_extension m ++ ".xmp"] ∧
      (matching_files exists_fn m).length = 2) ∧
    (¬ (extUpper m = "NEF" ∧ exists_fn (remove_extension m ++ ".xmp") = true) →
      matching_files exists_fn m = [m] ∧
      (matching_files exists_fn m).length = 1) := by
  constructor
  · rintro ⟨hext, hex⟩
    constructor <;> simp [matching_files, hext, hex]
  · intro h
    by_cases hext : extUpper m = "NEF"
    · have hex : exists_fn (remove_extension m ++ ".xmp") = false := by
        cases hx : exists_fn (remove_extension m ++ ".xmp")
        · rfl
        · exact absurd ⟨hext, hx⟩ h
      constructor <;> simp [matching_files, hext, hex]
    · constructor <;> simp [matching_files, hext]

/-- Witness for C5: `a.NEF` with an existing sidecar gives the pair, and
`a.JPG` gives the singleton. -/
theorem C5_replacement_set_size_witness :
    matching_files (fun _ => true) "a.NEF" = ["a.NEF", "a.xmp"] ∧
    matching_files (fun _ => true) "a.JPG" = ["a.JPG"] := by
  constructor
  · exact ((C5_replacement_set_size (fun _ => true) "a.NEF").1 (by decide)).1
  · exact ((C5_replacement_set_size (fun _ => true) "a.JPG").2 (by decide)).1

/-- C7: a target file whose base name is absent from the candidate index
causes no action at all: the synchronizer step leaves the folder listing
unchanged, emits no event (no deletion, no print, no shortcut), and
raises nothing. -/
theorem C7_unmatched_target_no_action (env : SyncEnv) (system : String)
    (names : List String) (file : String)
    (h : dlookup env.index (remove_extension (basename file)) = none) :
    syncFile env system names file = (names, [], none) := by
  rw [syncFile]
  by_cases hds : endswith file "DS_Store" = true
  · rw [if_pos hds]
  · rw [if_neg hds]
    dsimp only []
    rw [h]

/-- Witness for C7: `c.JPG` against an empty index is untouched. -/
theorem C7_unmatched_target_no_action_witness :
    syncFile ⟨"/t", [], fun _ => false, fun _ _ => false⟩ "Darwin"
      ["c.JPG"] "/t/c.JPG" = (["c.JPG"], [], none) :=
  C7_unmatched_target_no_action ⟨"/t", [], fun _ => false, fun _ _ => false⟩
    "Darwin" ["c.JPG"] "/t/c.JPG" (by rfl)

/-- C8: `create_shortcut` raises `FileNotFoundError` whenever the source
path does not exist — uniformly in the platform, i.e. before any
platform dispatch — and never raises a not-found error when the source
exists. -/
theorem C8_create_shortcut_not_found (exists_fn : String → Bool)
    (aliasOk : String → String → Bool) (system src dst : String) :
    (exists_fn src = false →
      create_shortcut exists_fn aliasOk system src dst =
        Except.error (PyError.fileNotFound src)) ∧
    (exists_fn src = true → ∀ p,
      create_shortcut exists_fn aliasOk system src dst ≠
        Except.error (PyError.fileNotFound p)) := by
  constructor
  · intro h
    rw [create_shortcut, if_pos h]
  · intro h p hc
    rw [create_shortcut, if_neg (by rw [h]; exact Bool.noConfusion)] at hc
    by_cases hd : system = "Darwin"
    · rw [if_pos hd] at hc
      exact Except.noConfusion hc
    · rw [if_neg hd] at hc
      by_cases hw : system = "Windows"
      · rw [if_pos hw] at hc
        exact Except.noConfusion hc
      · rw [if_neg hw] at hc
        exact PyError.noConfusion (Except.error.inj hc)

/-- Witness for C8: a missing source fails with not-found even on an
unsupported platform (the check precedes dispatch); an existing source
on that same platform never yields a not-found error. -/
theorem C8_create_shortcut_not_found_witness :
    create_shortcut (fun _ => false) (fun _ _ => true) "Linux" "/s" "/d" =
      Except.error (PyError.fileNotFound "/s") ∧
    create_shortcut (fun _ => true) (fun _ _ => true) "Linux" "/s" "/d" ≠
      Except.error (PyError.fileNotFound "/s") := by
  constructor
  · exact (C8_create_shortcut_not_found (fun _ => false) (fun _ _ => true)
      "Linux" "/s" "/d").1 rfl
  · exact (C8_create_shortcut_not_found (fun _ => true) (fun _ _ => true)
      "Linux" "/s" "/d").2 rfl "/s"

lemma create_shortcut_ok_no_deleted {exists_fn : String → Bool}
    {aliasOk : String → String → Bool} {system src dst : String}
    {evs : List Event}
    (h : create_shortcut exists_fn aliasOk system src dst = Except.ok evs)
    (n : String) : Event.deleted n ∉ evs := by
  rw [create_shortcut] at h
  by_cases h1 : exists_fn src = false
  · rw [if_pos h1] at h
    exact Except.noConfusion h
  · rw [if_neg h1] at h
    by_cases hd : system = "Darwin"
    · rw [if_pos hd] at h
      have hevs := (Except.ok.inj h).symm
      subst hevs
      rw [create_alias_macos]
      by_cases ha : aliasOk src dst = true
      · simp [ha]
      · simp [ha]
    · rw [if_neg hd] at h
      by_cases hw : system = "Windows"
      · rw [if_pos hw] at h
        have hevs := (Except.ok.inj h).symm
        subst hevs
        simp
      · rw [if_neg hw] at h
        exact Except.noConfusion h

lemma createShortcutsLoop_no_deleted (env : SyncEnv) (system pf : String) :
    ∀ (mfs names : List String) (n : String),
      Event.deleted n ∉ (createShortcutsLoop env system pf names mfs).2.1 := by
  intro mfs
  induction mfs with
  | nil =>
    intro names n
    rw [createShortcutsLoop]
    exact List.not_mem_nil _
  | cons src rest ih =>
    intro names n
    rw [createShortcutsLoop]
    dsimp only []
    cases hc : create_shortcut env.refExists env.aliasOk system src
        (env.folder ++ "/" ++ (pf ++ "." ++ lastDotPart src)) with
    | error e =>
      exact List.not_mem_nil _
    | ok evs =>
      dsimp only []
      rw [List.mem_append]
      rintro (hin | hin)
      · exact create_shortcut_ok_no_deleted hc n hin
      · exact ih _ n hin

/-- C6 counterexample: the claim says a file whose name ends in
`DS_Store` is never deleted by the synchronizer's deletion step,
whatever the index and target tree.  False: the reserved-looking file
`xDS_Store` shares the base name `xDS_Store` with the matched target
file `xDS_Store.JPG` (which does not end in `DS_Store`, so it is not
skipped), and `delete_files_with_same_basename` deletes it. -/
theorem C6_reserved_file_deleted_counterexample :
    Event.deleted "xDS_Store" ∈
      (syncFile envC6 "Darwin" ["xDS_Store", "xDS_Store.JPG"]
        "/t/xDS_Store.JPG").2.1 ∧
    endswith "xDS_Store" "DS_Store" = true := by decide

/-- C6 amended: a target-tree file whose name ends in `DS_Store` is
never treated as a match candidate (the step skips it before any index
lookup, with no effect at all); and the deletion step deletes a listed
file — reserved or not — only when a walked target file that does not
end in `DS_Store` has a matching index entry and shares that file's base
name.  So a reserved metadata file is never matched, but it can still be
deleted when a non-reserved matched target file shares its base name. -/
theorem C6_reserved_skipped_deletion_characterized (env : SyncEnv)
    (system : String) (names : List String) (file : String) :
    (endswith file "DS_Store" = true →
      syncFile env system names file = (names, [], none)) ∧
    (∀ n, Event.deleted n ∈ (syncFile env system names file).2.1 →
      n ∈ names ∧ remove_extension n = remove_extension (basename file) ∧
      endswith file "DS_Store" = false ∧
      dlookup env.index (remove_extension (basename file)) ≠ none) := by
  constructor
  · intro h
    rw [syncFile, if_pos h]
  · intro n hmem
    by_cases hds : endswith file "DS_Store" = true
    · rw [syncFile, if_pos hds] at hmem
      exact absurd hmem (List.not_mem_nil _)
    · have hds' : endswith file "DS_Store" = false := by
        cases h : endswith file "DS_Store"
        · rfl
        · exact absurd h hds
      rw [syncFile, if_neg hds] at hmem
      dsimp only [] at hmem
      cases hl : dlookup env.index (remove_extension (basename file)) with
      | none =>
        rw [hl] at hmem
        exact absurd hmem (List.not_mem_nil _)
      | some mf =>
        rw [hl] at hmem
        dsimp only [] at hmem
        rcases List.mem_cons.mp hmem with heq | hin
        · exact Event.noConfusion heq
        · rcases List.mem_append.mp hin with hdel | hloop
          · rcases List.mem_map.mp hdel with ⟨x, hx, hxe⟩
            have hxn : x = n := Event.deleted.inj hxe
            subst hxn
            have hfil := List.mem_filter.mp hx
            exact ⟨hfil.1, of_decide_eq_true hfil.2, hds',
              fun hc => Option.noConfusion hc⟩
          · exact absurd hloop (createShortcutsLoop_no_deleted env system _ _ _ n)

/-- Witness for C6 amended: a `.DS_Store` entry in the target walk is
skipped outright even though its base name is in the index. -/
theorem C6_reserved_skipped_witness :
    syncFile envC6 "Darwin" ["xDS_Store"] "/t/.DS_Store" =
      (["xDS_Store"], [], none) :=
  (C6_reserved_skipped_deletion_characterized envC6 "Darwin" ["xDS_Store"]
    "/t/.DS_Store").1 (by decide)

lemma create_shortcut_darwin_err {exists_fn : String → Bool}
    {aliasOk : String → String → Bool} {src dst : String} {e : PyError}
    (h : create_shortcut exists_fn aliasOk "Darwin" src dst = Except.error e) :
    e = PyError.fileNotFound src ∧ exists_fn src = false := by
  rw [create_shortcut] at h
  by_cases h1 : exists_fn src = false
  · rw [if_pos h1] at h
    exact ⟨(Except.error.inj h).symm, h1⟩
  · rw [if_neg h1, if_pos rfl] at h
    exact Except.noConfusion h

lemma createShortcutsLoop_darwin_err (env : SyncEnv) (pf : String) :
    ∀ (mfs names : List String) (e : PyError),
      (createShortcutsLoop env "Darwin" pf names mfs).2.2 = some e →
      ∃ s, e = PyError.fileNotFound s ∧ env.refExists s = false := by
  intro mfs
  induction mfs with
  | nil =>
    intro names e h
    rw [createShortcutsLoop] at h
    exact Option.noConfusion h
  | cons src rest ih =>
    intro names e h
    rw [createShortcutsLoop] at h
    dsimp only [] at h
    cases hc : create_shortcut env.refExists env.aliasOk "Darwin" src
        (env.folder ++ "/" ++ (pf ++ "." ++ lastDotPart src)) with
    | error e' =>
      rw [hc] at h
      dsimp only [] at h
      have he := (Option.some.inj h).symm
      subst he
      rcases create_shortcut_darwin_err hc with ⟨he, hex⟩
      exact ⟨src, he, hex⟩
    | ok evs =>
      rw [hc] at h
      dsimp only [] at h
      exact ih _ e h

lemma syncFile_darwin_err (env : SyncEnv) (names : List String)
    (file : String) (e : PyError)
    (h : (syncFile env "Darwin" names file).2.2 = some e) :
    ∃ s, e = PyError.fileNotFound s ∧ env.refExists s = false := by
  rw [syncFile] at h
  by_cases hds : endswith file "DS_Store" = true
  · rw [if_pos hds] at h
    exact Option.noConfusion h
  · rw [if_neg hds] at h
    dsimp only [] at h
    cases hl : dlookup env.index (remove_extension (basename file)) with
    | none =>
      rw [hl] at h
      exact Option.noConfusion h
    | some mf =>
      rw [hl] at h
      dsimp only [] at h
      exact createShortcutsLoop_darwin_err env _ _ _ e h

lemma syncRun_cons (env : SyncEnv) (system : String) (names : List String)
    (f : String) (fs : List String)
    (h : (syncFile env system names f).2.2 = none) :
    syncRun env system names (f :: fs) =
      ((syncRun env system (syncFile env system names f).1 fs).1,
       (syncFile env system names f).2.1 ++
         (syncRun env system (syncFile env system names f).1 fs).2.1,
       (syncRun env system (syncFile env system names f).1 fs).2.2) := by
  rw [syncRun]
  dsimp only []
  rw [h]

/-- C9 counterexample: the claim says a non-zero outcome of the
shortcut-creation call propagates and halts the run, so no subsequent
target file is processed.  False: the `try/except` inside
`create_alias_macos` swallows the failure — the run reports it (the
`aliasErr` event holds the attempted script's source and alias paths),
then processes the next target file `b.JPG` (its alias is created), and
finishes without any raised error. -/
theorem C9_failure_does_not_halt_counterexample :
    Event.aliasErr "/r/a.JPG" "/t/a.JPG" ∈
      (syncRun envC9 "Darwin" ["a.JPG", "b.JPG"]
        ["/t/a.JPG", "/t/b.JPG"]).2.1 ∧
    Event.createdAlias "/r/b.JPG" "/t/b.JPG" ∈
      (syncRun envC9 "Darwin" ["a.JPG", "b.JPG"]
        ["/t/a.JPG", "/t/b.JPG"]).2.1 ∧
    (syncRun envC9 "Darwin" ["a.JPG", "b.JPG"]
      ["/t/a.JPG", "/t/b.JPG"]).2.2 = none := by decide

/-- C9 amended: on macOS a non-zero outcome of the shortcut-creation
call is reported with the attempted command/script (the `aliasErr`
event) and then **swallowed** by the `try/except` inside
`create_alias_macos`: a synchronizer step can only raise the
`FileNotFoundError` of a missing source — never an external-tool
failure — and whenever a step raises nothing the run goes on to process
the subsequent target files. -/
theorem C9_alias_failure_reported_and_swallowed (env : SyncEnv)
    (names : List String) (file : String) (rest : List String) :
    (∀ src dst, env.aliasOk src dst = false →
      create_alias_macos env.aliasOk src dst = [Event.aliasErr src dst]) ∧
    (∀ e, (syncFile env "Darwin" names file).2.2 = some e →
      ∃ s, e = PyError.fileNotFound s ∧ env.refExists s = false) ∧
    ((syncFile env "Darwin" names file).2.2 = none →
      syncRun env "Darwin" names (file :: rest) =
        ((syncRun env "Darwin" (syncFile env "Darwin" names file).1 rest).1,
         (syncFile env "Darwin" names file).2.1 ++
           (syncRun env "Darwin"
             (syncFile env "Darwin" names file).1 rest).2.1,
         (syncRun env "Darwin"
           (syncFile env "Darwin" names file).1 rest).2.2)) := by
  refine ⟨?_, fun e h => syncFile_darwin_err env names file e h,
    fun h => syncRun_cons env "Darwin" names file rest h⟩
  intro src dst h
  rw [create_alias_macos, if_neg (by rw [h]; exact Bool.noConfusion)]

/-- Witness for C9 amended: in the concrete run of the counterexample
the failing first step raises nothing, so the run continues into the
second target file, and the failed call is reported. -/
theorem C9_alias_failure_reported_and_swallowed_witness :
    create_alias_macos envC9.aliasOk "/r/a.JPG" "/t/a.JPG" =
      [Event.aliasErr "/r/a.JPG" "/t/a.JPG"] ∧
    syncRun envC9 "Darwin" ["a.JPG", "b.JPG"] ["/t/a.JPG", "/t/b.JPG"] =
      ((syncRun envC9 "Darwin"
          (syncFile envC9 "Darwin" ["a.JPG", "b.JPG"] "/t/a.JPG").1
          ["/t/b.JPG"]).1,
       (syncFile envC9 "Darwin" ["a.JPG", "b.JPG"] "/t/a.JPG").2.1 ++
         (syncRun envC9 "Darwin"
           (syncFile envC9 "Darwin" ["a.JPG", "b.JPG"] "/t/a.JPG").1
           ["/t/b.JPG"]).2.1,
       (syncRun envC9 "Darwin"
         (syncFile envC9 "Darwin" ["a.JPG", "b.JPG"] "/t/a.JPG").1
         ["/t/b.JPG"]).2.2) := by
  have h := C9_alias_failure_reported_and_swallowed envC9 ["a.JPG", "b.JPG"]
    "/t/a.JPG" ["/t/b.JPG"]
  exact ⟨h.1 "/r/a.JPG" "/t/a.JPG" (by decide), h.2.2 (by decide)⟩

/-- C10: when the target folder attribute is falsy (`None` — the
constructor stores `None` for any falsy `folder` argument),
`convert_image_shortcuts` returns `False` at once: whatever the
reference walk, target walk and listing, the result carries the
unchanged listing, an empty event trace (no deletion, no shortcut
creation) and no raised error. -/
theorem C10_unset_folder_returns_false (type_priority : Option (List String))
    (refFiles : List String) (refExists : String → Bool)
    (aliasOk : String → String → Bool) (system : String)
    (targetWalk targetNames : List String) :
    convert_image_shortcuts none type_priority refFiles refExists aliasOk
      system targetWalk targetNames = (some false, targetNames, [], none) := by
  rfl
